import Mathlib

/-!
Verification of the model-selection / cross-validation core of the
kaggle-seizure-prediction repository (src/python/wavelet_classification.py and
src/python/classification/seizure_modeling.py), as a shallow embedding in Lean.

Feature rows are modelled by their metadata (segment id and binary label);
the numeric feature columns play no role in the splitting, registry and
scoring logic under verification.  The numpy global random generator is
modelled as an explicit environment holding the stream of upcoming uniform
draws, together with the (abstract) seeding function of the Mersenne
Twister; python's module-level random generator is modelled by the next
value it would return.
-/

/-- One row of a labeled feature table: the source indexes rows by
(segment, frame) and adds a binary Preictal label column
(wavelet_classification.py, load_data_frames).  Only the metadata relevant
to splitting is retained. -/
structure Row where
  segment_id : String
  preictal : Nat
  deriving DecidableEq, Repr

namespace wavelet_classification

/-- The stream of upcoming uniform draws of a random generator:
draw number n is `s n`, a rational in [0, 1). -/
abbrev RandStream := Nat → ℚ

/-- Advance a stream past its first k draws. -/
def shiftStream (s : RandStream) (k : Nat) : RandStream := fun n => s (n + k)

/-- The ambient random state of the python process:
np      - the upcoming draws of numpy's global generator;
mt      - the (abstract, deterministic) Mersenne-Twister seeding map:
          np.random.seed(sd) replaces the numpy stream by mt sd;
pyNext  - the next value python's random.randrange(0, 4294967295) returns. -/
structure PyEnv where
  np : RandStream
  mt : Nat → RandStream
  pyNext : Nat

/-- Errors surfaced by the embedded code.  The python originals are:
unsupportedMethod   - NotImplementedError("Method ... is not supported");
insufficientData    - the ValueError numpy.random.choice raises when asked
                      for a sample larger than the population with
                      replace=False (the spec taxonomy names it
                      InsufficientDataError);
missingArgument     - the assert in random_split when neither ratio nor
                      desired_rows is given;
configurationError  - the ValueError sklearn StratifiedKFold raises when
                      n_folds exceeds the number of samples (the spec
                      taxonomy names it ConfigurationError);
valueError          - list.index(x) when x is absent. -/
inductive PyError where
  | unsupportedMethod (method : String)
  | insufficientData
  | missingArgument
  | configurationError
  | valueError
  deriving DecidableEq, Repr

/-- The mask split `msk = np.random.rand(len(df)) < ratio;
df[msk], df[~msk]` (random_split, wavelet_classification.py line 215):
row i goes to the first component iff draw i is below the ratio. -/
def ratioSplit (r : ℚ) (s : RandStream) : List Row → List Row × List Row
  | [] => ([], [])
  | x :: xs =>
    let rest := ratioSplit r (shiftStream s 1) xs
    if s 0 < r then (x :: rest.1, rest.2) else (rest.1, x :: rest.2)

/-- Models numpy.random.choice(pool, k, replace=False): draw k distinct
elements from the pool, consuming the global uniform stream (one draw per
selected element; each draw picks a position in the remaining pool). -/
def sampleNoReplace : List Nat → Nat → RandStream → List Nat
  | _, 0, _ => []
  | [], _ + 1, _ => []
  | x :: xs, k + 1, s =>
    let pool := x :: xs
    let i := min (Int.toNat ⌊s 0 * pool.length⌋) (pool.length - 1)
    pool.getD i 0 :: sampleNoReplace (pool.eraseIdx i) k (shiftStream s 1)

/-- wavelet_classification.py, random_split (lines 205-220).
Returns the (train, test) pair together with the ambient random state
after the call.  Faithful to the source: np.random.seed is called only
when the seed argument is None; a caller-supplied seed is never fed to
the generator. -/
def random_split (df : List Row) (ratio : Option ℚ) (desired_rows : Option ℚ)
    (seed : Option Nat) (env : PyEnv) :
    Except PyError ((List Row × List Row) × PyEnv) :=
  if ratio.isNone ∧ desired_rows.isNone then .error .missingArgument
  else
    let env1 : PyEnv :=
      match seed with
      | none =>
        let sd := env.pyNext % 4294967295
        { np := env.mt sd, mt := env.mt, pyNext := env.pyNext + 1 }
      | some _ => env
    match ratio with
    | some r =>
      .ok (ratioSplit r env1.np df,
           { env1 with np := shiftStream env1.np df.length })
    | none =>
      match desired_rows with
      | some d =>
        let size := (Int.floor d).toNat
        if df.length < size then .error .insufficientData
        else
          let chosen := sampleNoReplace (List.range df.length) size env1.np
          .ok ((chosen.filterMap (fun i => df.get? i),
                ((List.range df.length).filter (fun i => ¬ i ∈ chosen)).filterMap
                  (fun i => df.get? i)),
               { env1 with np := shiftStream env1.np size })
      | none => .error .missingArgument

/-- wavelet_classification.py, split_experiment_data (lines 158-202).
With do_downsample, draws downsample_ratio * preictal-count interictal rows
without replacement, appends all preictal rows, and splits the result by
the training ratio; the freshly drawn seed (when none was supplied) is
re-used for both random_split calls, exactly as in the source. -/
def split_experiment_data (train_interictal train_preictal : List Row)
    ( training_ratio : ℚ) (do_downsample : Bool) ( downsample_ratio : ℚ)
    (seed : Option Nat) (env : PyEnv) :
    Except PyError ((List Row × List Row) × PyEnv) :=
  if do_downsample then
    let desired : ℚ := downsample_ratio * (train_preictal.length : ℚ)
    let seeded : Option Nat × PyEnv :=
      match seed with
      | none =>
        let sd := env.pyNext % 4294967295
        (some sd, { np := env.mt sd, mt := env.mt, pyNext := env.pyNext + 1 })
      | some s => (some s, env)
    match random_split train_interictal none (some desired) seeded.1 seeded.2 with
    | .error e => .error e
    | .ok (pair, env2) =>
      random_split (pair.1 ++ train_preictal) (some training_ratio) none
        seeded.1 env2
  else
    random_split (train_interictal ++ train_preictal) (some training_ratio)
      none seed env

/-- wavelet_classification.py, create_model (lines 222-233); the estimator
objects are recorded by their construction description. -/
def create_model (method : String) : Except PyError String :=
  if method = "svm" then
    .ok "SVC(probability=True, class_weight=auto)"
  else if method = "sgd" then
    .ok "SGDClassifier()"
  else if method = "random-forest" then
    .ok "RandomForestClassifier()"
  else
    .error (.unsupportedMethod method)

end wavelet_classification

namespace seizure_modeling

open wavelet_classification (PyError)

/-- A python value appearing as a hyperparameter: numbers, strings, lists of
candidates, None, the random_state argument, and the base SVC estimator the
bagging branch builds, namely sklearn.svm.SVC(probability=False,
class_weight='auto', cache_size=1000, kernel='rbf', C=500,
random_state=random_state), recorded by its only varying argument. -/
inductive PVal where
  | num (q : ℚ)
  | str (s : String)
  | numList (l : List ℚ)
  | strList (l : List String)
  | boolVal (b : Bool)
  | boolList (l : List Bool)
  | noneVal
  | optNat (v : Option Nat)
  | optNatList (l : List (Option Nat))
  | svcBase ( random_state : Option Nat)
  deriving DecidableEq, Repr

/-- A python dict of keyword parameters, as an association list in insertion
order. -/
abbrev Params := List (String × PVal)

/-- Python dict membership: k in d. -/
def dictMem (d : Params) (k : String) : Bool := d.any (fun p => p.1 = k)

/-- Python dict item assignment d[k] = v: overwrite the entry in place when
the key exists (dict keys are unique), append otherwise. -/
def dictSet (d : Params) (k : String) (v : PVal) : Params :=
  match d with
  | [] => [(k, v)]
  | a :: rest => if a.1 = k then (k, v) :: rest else a :: dictSet rest k v

/-- Python dict lookup d[k] as an Option. -/
def dictGet (d : Params) (k : String) : Option PVal :=
  (d.find? (fun p => p.1 = k)).map (fun p => p.2)

/-- An estimator construction: class name and constructor keyword args. -/
structure ClfInit where
  className : String
  initParams : Params
  deriving DecidableEq, Repr

/-- The param_grid value of get_model: either a single dict of axes or a
list of dicts of axes. -/
inductive GridVal where
  | ofDict (d : Params)
  | ofList (l : List Params)
  deriving DecidableEq, Repr

/-- The dictionary get_model returns, together with the final state of the
caller-supplied model_params dict (get_model mutates it in the bagging
branch). -/
structure ModelDict where
  estimator : ClfInit
  param_grid : GridVal
  model_params_after : Option Params
  deriving DecidableEq, Repr

/-- numpy.linspace a b n: n evenly spaced points from a to b inclusive. -/
def linspace (a b : ℚ) (n : Nat) : List ℚ :=
  (List.range n).map (fun i => a + (b - a) * i / ((n : ℚ) - 1))

/-- The fixed enumeration of supported method names, in the order of the
branches of get_model_class (seizure_modeling.py lines 21-39). -/
def supportedMethods : List String :=
  ["logistic", "svm", "mirowski-svm", "sgd", "random-forest",
   "nearest-centroid", "knn", "bagging"]

/-- seizure_modeling.py, get_model_class (lines 21-39): maps a method name
to its sklearn estimator class, NotImplementedError otherwise. -/
def get_model_class (method : String) : Except PyError String :=
  if method = "logistic" then .ok "sklearn.linear_model.LogisticRegression"
  else if method = "svm" then .ok "sklearn.svm.SVC"
  else if method = "mirowski-svm" then .ok "sklearn.svm.SVC"
  else if method = "sgd" then .ok "sklearn.linear_model.SGDClassifier"
  else if method = "random-forest" then .ok "sklearn.ensemble.RandomForestClassifier"
  else if method = "nearest-centroid" then .ok "sklearn.neighbors.NearestCentroid"
  else if method = "knn" then .ok "sklearn.neighbors.KNeighborsClassifier"
  else if method = "bagging" then .ok "sklearn.ensemble.BaggingClassifier"
  else .error (.unsupportedMethod method)

/-- The bagging branch of get_model (lines 90-97): when model_params is not
None it is mutated in place, inserting the base estimator and, when absent,
a max_samples entry of 0.5. -/
def baggingAdjust ( model_params : Option Params) ( random_state : Option Nat) :
    Option Params :=
  match model_params with
  | none => none
  | some d =>
    let d1 := dictSet d "base_estimator" (.svcBase random_state)
    some (if dictMem d1 "max_samples" then d1
          else dictSet d1 "max_samples" (.num (1/2)))

/-- Lines 107-111 of get_model: model params overrides the default
param_grid, and the result dictionary is assembled. -/
def finishModel (clf : ClfInit) (default_grid : GridVal)
    ( model_params : Option Params) : Except PyError ModelDict :=
  .ok { estimator := clf,
        param_grid := match model_params with
          | some d => .ofDict d
          | none => default_grid,
        model_params_after := model_params }

/-- seizure_modeling.py, get_model (lines 42-111).  The min_c argument
abstracts sklearn.svm.l1_min_c(training_data_x, training_data_y, loss='log'),
the only use the function makes of the training data. -/
def get_model (method : String) (min_c : ℚ) ( model_params : Option Params)
    ( random_state : Option Nat) : Except PyError ModelDict :=
  if method = "logistic" then
    finishModel
      ⟨"LogisticRegression", [("C", .num 1), ("random_state", .optNat random_state)]⟩
      (.ofDict [("C", .numList (linspace min_c 100000 10)),
                ("penalty", .strList ["l1", "l2"]),
                ("random_state", .optNatList [random_state])])
      model_params
  else if method = "svm" then
    finishModel
      ⟨"SVC", [("probability", .boolVal true), ("class_weight", .str "auto"),
               ("cache_size", .num 1000)]⟩
      (.ofList [[("kernel", .strList ["rbf"]),
                 ("gamma", .numList [0, 1/10, 1/1000]),
                 ("C", .numList (linspace min_c 1000 3))]])
      model_params
  else if method = "mirowski-svm" then
    finishModel
      ⟨"SVC", [("probability", .boolVal true), ("class_weight", .str "auto")]⟩
      (.ofList [[("kernel", .strList ["rbf"]),
                 ("C", .numList ((linspace (1/4) 4 4).map (fun q => 64 * q))),
                 ("gamma", .numList ((linspace (1/4) 4 4).map
                    (fun q => 1/8192 * q)))]])
      model_params
  else if method = "sgd" then
    finishModel ⟨"SGDClassifier", []⟩
      (.ofList [[("loss", .strList ["hinge", "log"]),
                 ("penalty", .strList ["l1", "l2", "elasticnet"]),
                 ("alpha", .numList [1/10000, 1/1000, 1/100, 1/10])]])
      model_params
  else if method = "random-forest" then
    finishModel ⟨"RandomForestClassifier", []⟩
      (.ofList [[("max_features", .strList ["sqrt", "log2"]),
                 ("n_estimators", .numList [10, 100, 1000]),
                 ("criterion", .strList ["gini", "entropy"])]])
      model_params
  else if method = "nearest-centroid" then
    finishModel ⟨"NearestCentroid", []⟩
      (.ofList [[("shrink_threshold", .noneVal)],
                [("shrink_threshold", .numList (linspace 0 2 10))]])
      model_params
  else if method = "knn" then
    finishModel ⟨"KNeighborsClassifier", []⟩
      (.ofList [[("algorithm", .strList ["ball_tree", "kd_tree", "brute"]),
                 ("n_neighbors", .numList [1, 2, 3, 4])]])
      model_params
  else if method = "bagging" then
    finishModel ⟨"BaggingClassifier", [("base_estimator", .svcBase random_state)]⟩
      (.ofList [[("n_estimators", .numList [10, 20]),
                 ("bootstrap_features", .boolList [true, false])]])
      (baggingAdjust model_params random_state)
  else .error (.unsupportedMethod method)

end seizure_modeling

/-- One feature vector, as passed to an estimator. -/
abbrev Features := List ℚ

/-- A fitted sklearn estimator, by its observable interface: the class
ordering classes_, hard predictions predict, and predict_proba when the
estimator exposes probability output (none models a missing attribute). -/
structure SkEstimator where
  classes_ : List ℤ
  predict : List Features → List ℤ
  predict_proba : Option (List Features → List (List ℚ))

/-- sklearn.metrics.roc_auc_score for a binary label vector: the fraction of
(positive, negative) pairs ranked correctly, ties counting one half.  For
binary targets the average keyword (the source passes average='weighted')
does not alter this value. -/
def roc_auc_score (y_true : List ℤ) (y_score : List ℚ) : ℚ :=
  let pairs := y_true.zip y_score
  let pos := (pairs.filter (fun p => p.1 = 1)).map Prod.snd
  let neg := (pairs.filter (fun p => ¬ p.1 = 1)).map Prod.snd
  if pos.length = 0 ∨ neg.length = 0 then 0
  else
    ((pos.map (fun ps =>
        (neg.map (fun ns =>
          if ns < ps then (1 : ℚ) else if ns = ps then 1/2 else 0)).sum)).sum)
      / ((pos.length : ℚ) * (neg.length : ℚ))

/-- A scorer as built by sklearn.metrics.make_scorer: the metric plus the
flags that select what the estimator is asked for.  Their sklearn defaults
are needs_proba=False and needs_threshold=False. -/
structure Scorer where
  score_func : List ℤ → List ℚ → ℚ
  needs_proba : Bool := false
  needs_threshold : Bool := false

/-- sklearn.metrics.make_scorer(metric, **kwargs) with default flags. -/
def make_scorer (f : List ℤ → List ℚ → ℚ) : Scorer :=
  { score_func := f }

/-- Calling a sklearn scorer on (estimator, X, y): with needs_proba the
metric receives the positive-class probabilities (binary case of
_ProbaScorer); otherwise it receives the hard predictions of
estimator.predict (_PredictScorer). -/
def applyScorer (sc : Scorer) (est : SkEstimator) (x : List Features)
    (y : List ℤ) : ℚ :=
  if sc.needs_proba then
    match est.predict_proba with
    | some f =>
      sc.score_func y
        ((f x).map (fun row => row.getD (est.classes_.indexOf 1) 0))
    | none => 0
  else
    sc.score_func y ((est.predict x).map (fun z => (z : ℚ)))

namespace seizure_modeling

/-- The scorer select_model builds (seizure_modeling.py line 276), which is
also the default scorer of find_best_model (wavelet_classification.py line
314): sklearn.metrics.make_scorer(sklearn.metrics.roc_auc_score,
average='weighted'). -/
def selectModelScorer : Scorer := make_scorer roc_auc_score

/-- The score GridSearchCV assigns to one (configuration, fold) in
select_model and find_best_model: the scorer applied to the fitted
estimator and the fold's test partition. -/
def gridSearchFoldScore (est : SkEstimator) (x : List Features) (y : List ℤ) : ℚ :=
  applyScorer selectModelScorer est x y

/-- Written from the spec's words (4.4), for comparison with
gridSearchFoldScore: weighted area-under-ROC-curve computed from predicted
class-1 probability when the estimator supports probability output, else
from hard class predictions. -/
def specFoldScore (est : SkEstimator) (x : List Features) (y : List ℤ) : ℚ :=
  match est.predict_proba with
  | some f =>
    roc_auc_score y ((f x).map (fun row => row.getD (est.classes_.indexOf 1) 0))
  | none => roc_auc_score y ((est.predict x).map (fun z => (z : ℤ)))

/-- seizure_modeling.py, predict (lines 202-221): with probabilities
requested and predict_proba available, take the probability column of the
class labeled 1, located by list(classes).index(1); otherwise the hard
class labels.  list.index raises ValueError when 1 is not a class. -/
def predict (clf : SkEstimator) (test_data : List Features)
    (probabilities : Bool) : Except wavelet_classification.PyError (List ℚ) :=
  if probabilities ∧ clf.predict_proba.isSome then
    match clf.predict_proba with
    | some f =>
      if (1 : ℤ) ∈ clf.classes_ then
        .ok ((f test_data).map (fun row => row.getD (clf.classes_.indexOf 1) 0))
      else .error .valueError
    | none => .error .valueError
  else
    .ok ((clf.predict test_data).map (fun z => (z : ℚ)))

end seizure_modeling

namespace dataset

open wavelet_classification (PyError)

/-- The distinct segment ids of a dataset, in order of first occurrence. -/
def segmentsOf (df : List Row) : List String :=
  (df.map (fun r => r.segment_id)).dedup

/-- The segment id of row i (rows are grouped by segment in the source
tables; out-of-range positions yield a dummy). -/
def rowSeg (df : List Row) (i : Nat) : String :=
  (df.getD i ⟨"", 0⟩).segment_id

/-- Modelled from the spec (4.1): the representative label of a segment -
the label of the segment's rows (segments are per-class in the source
tables, so the first row's label represents the segment). -/
def segLabel (df : List Row) (seg : String) : Nat :=
  ((df.filter (fun r => r.segment_id = seg)).map (fun r => r.preictal)).headD 0

/-- Modelled from the spec (4.1): the fold a stratified K-fold over the
segment-level collection assigns to a segment - its rank among the
segments carrying the same representative label, modulo the fold count
(the concrete deterministic assignment of sklearn's per-class dealing). -/
def foldOf (df : List Row) (nFolds : Nat) (seg : String) : Nat :=
  ((segmentsOf df).filter
      (fun t => segLabel df t = segLabel df seg)).indexOf seg % nFolds

/-- Modelled from the spec: class dataset.SegmentCrossValidator of the
repository's datasets module, which is not present under src/
(seizure_modeling.py line 120 instantiates it).  Per spec 4.1: collapse
the dataset to one representative label per segment_id, run stratified
K-fold over the reduced segment-level collection, and expand each
segment-level fold back to row-level indices by membership lookup; the
underlying sklearn StratifiedKFold rejects a fold count exceeding the
number of samples (here, of distinct segments) at construction, which the
spec taxonomy names ConfigurationError.  Each fold is a
(train-indices, test-indices) pair. -/
def SegmentCrossValidator (df : List Row) (nFolds : Nat) :
    Except PyError (List (List Nat × List Nat)) :=
  if (segmentsOf df).length < nFolds then .error .configurationError
  else
    .ok ((List.range nFolds).map (fun j =>
      ((List.range df.length).filter (fun i => foldOf df nFolds (rowSeg df i) ≠ j),
       (List.range df.length).filter (fun i => foldOf df nFolds (rowSeg df i) = j))))

/-- Modelled from sklearn.cross_validation.StratifiedKFold over row-level
labels (the do_segment_split=False branch of get_cv_generator): fold of
row i is its rank within its label class modulo the fold count; the
constructor rejects a fold count exceeding the number of samples. -/
def stratifiedKFold (labels : List Nat) (nFolds : Nat) :
    Except PyError (List (List Nat × List Nat)) :=
  if labels.length < nFolds then .error .configurationError
  else
    let rank := fun i =>
      ((List.range labels.length).filter
          (fun k => labels.getD k 0 = labels.getD i 0)).indexOf i % nFolds
    .ok ((List.range nFolds).map (fun j =>
      ((List.range labels.length).filter (fun i => rank i ≠ j),
       (List.range labels.length).filter (fun i => rank i = j))))

end dataset

namespace seizure_modeling

/-- seizure_modeling.py, get_cv_generator (lines 114-123): with
do_segment_split a SegmentCrossValidator over the training data with
n_folds=10, otherwise a StratifiedKFold over the Preictal column with
n_folds=10. -/
def get_cv_generator (training_data : List Row) (do_segment_split : Bool) :
    Except wavelet_classification.PyError (List (List Nat × List Nat)) :=
  if do_segment_split then
    dataset.SegmentCrossValidator training_data 10
  else
    dataset.stratifiedKFold (training_data.map (fun r => r.preictal)) 10

/-- The rows of df standing at the given index positions. -/
def rowsAt (df : List Row) (idx : List Nat) : List Row :=
  idx.map (fun i => df.getD i ⟨"", 0⟩)

/-- The segment ids occurring among the rows of df at the given positions. -/
def segIdsAt (df : List Row) (idx : List Nat) : List String :=
  (rowsAt df idx).map (fun r => r.segment_id)

end seizure_modeling

/-- A concrete binary probabilistic estimator used as test input: classes
ordered [0, 1], hard prediction constantly 1, and probability output
assigning the class-1 probability equal to the (single) feature value. -/
def estC4 : SkEstimator :=
  { classes_ := [0, 1],
    predict := fun xs => xs.map (fun _ => 1),
    predict_proba := some (fun xs => xs.map (fun v =>
      [1 - v.headD 0, v.headD 0])) }

/-! ## Theorems -/

namespace seizure_modeling

theorem dictGet_dictSet_self (d : Params) (k : String) (v : PVal) :
    dictGet (dictSet d k v) k = some v := by
  induction d with
  | nil => simp [dictSet, dictGet]
  | cons a rest ih =>
    by_cases h : a.1 = k
    · simp [dictSet, dictGet, h]
    · simp [dictSet, dictGet, h] at ih ⊢
      exact ih

theorem dictGet_dictSet_ne (d : Params) (k v : _) (k2 : String) (h : k2 ≠ k) :
    dictGet (dictSet d k v) k2 = dictGet d k2 := by
  induction d with
  | nil => simp [dictSet, dictGet, Ne.symm h]
  | cons a rest ih =>
    by_cases ha : a.1 = k
    · simp [dictSet, dictGet, ha, Ne.symm h]
    · by_cases ha2 : a.1 = k2
      · simp only [dictSet, ha, if_false]
        simp [dictGet, ha2]
      · simp only [dictSet, ha, if_false]
        simp [dictGet, ha2] at ih ⊢
        exact ih

theorem dictMem_dictSet_ne (d : Params) (k v : _) (k2 : String) (h : k2 ≠ k) :
    dictMem (dictSet d k v) k2 = dictMem d k2 := by
  induction d with
  | nil => simp [dictSet, dictMem, Ne.symm h]
  | cons a rest ih =>
    by_cases ha : a.1 = k
    · simp [dictSet, dictMem, ha, Ne.symm h]
    · simp only [dictSet, ha, if_false]
      simp only [dictMem, List.any_cons] at ih ⊢
      rw [ih]

end seizure_modeling

namespace seizure_modeling

/-- C8: for every method name outside the fixed supported enumeration, the
registry lookups get_model_class and get_model and the estimator factory
create_model all fail with the unsupported-method error (python:
NotImplementedError, named UnsupportedMethodError by the spec taxonomy). -/
theorem unknown_method_raises (method : String)
    (h : method ∉ supportedMethods) :
    get_model_class method = .error (.unsupportedMethod method) ∧
    (∀ (min_c : ℚ) (mp : Option Params) (rs : Option Nat),
       get_model method min_c mp rs = .error (.unsupportedMethod method)) ∧
    wavelet_classification.create_model method
      = .error (.unsupportedMethod method) := by
  simp only [supportedMethods, List.mem_cons, List.not_mem_nil, or_false,
    not_or] at h
  obtain ⟨h1, h2, h3, h4, h5, h6, h7, h8⟩ := h
  refine ⟨?_, fun min_c mp rs => ?_, ?_⟩ <;>
    simp [get_model_class, get_model, wavelet_classification.create_model,
      h1, h2, h3, h4, h5, h6, h7, h8]

theorem unknown_method_raises_witness :
    get_model_class "not-a-real-method"
      = .error (.unsupportedMethod "not-a-real-method") ∧
    get_model "not-a-real-method" 1 none none
      = .error (.unsupportedMethod "not-a-real-method") ∧
    wavelet_classification.create_model "not-a-real-method"
      = .error (.unsupportedMethod "not-a-real-method") := by
  have h := unknown_method_raises "not-a-real-method" (by decide)
  exact ⟨h.1, h.2.1 1 none none, h.2.2⟩

/-- C6, counterexample: for method bagging with the (non-None) empty dict
as override, the returned parameter grid is not the override: get_model has
inserted base_estimator and max_samples entries into it. -/
theorem bagging_grid_differs_from_override :
    (get_model "bagging" 1 (some []) none).toOption.map
        (fun md => md.param_grid) ≠ some (GridVal.ofDict []) := by
  decide

/-- C6, amended: for every supported method other than bagging, a non-None
caller-supplied override becomes the returned parameter grid in full,
replacing the registry's default grid and never merged with it. -/
theorem override_replaces_default_grid (method : String)
    (hm : method ∈ supportedMethods) (hnb : method ≠ "bagging")
    (min_c : ℚ) (p : Params) (rs : Option Nat) :
    (get_model method min_c (some p) rs).toOption.map (fun md => md.param_grid)
      = some (.ofDict p) := by
  simp only [supportedMethods, List.mem_cons, List.not_mem_nil, or_false] at hm
  rcases hm with h | h | h | h | h | h | h | h <;>
    first
      | exact absurd h hnb
      | (subst h; simp [get_model, finishModel, Except.toOption])

theorem override_replaces_default_grid_witness :
    (get_model "logistic" 1 (some [("C", PVal.num 2)]) none).toOption.map
        (fun md => md.param_grid) = some (.ofDict [("C", PVal.num 2)]) :=
  override_replaces_default_grid "logistic" (by decide) (by decide) 1
    [("C", PVal.num 2)] none

end seizure_modeling

namespace seizure_modeling

/-- C10: for method bagging with a non-None model_params dict, get_model
mutates the caller's dict: it inserts a base_estimator entry and, when
absent, a max_samples entry of 0.5; every other key keeps its value; the
mutated dict is exactly the parameter grid that is returned; and for every
other supported method the model_params argument is left unchanged. -/
theorem bagging_mutates_model_params (p d2 : Params) (min_c : ℚ)
    (rs : Option Nat) (g : GridVal)
    (hparams : (get_model "bagging" min_c (some p) rs).toOption.map
        (fun md => md.model_params_after) = some (some d2))
    (hgrid : (get_model "bagging" min_c (some p) rs).toOption.map
        (fun md => md.param_grid) = some g) :
    dictGet d2 "base_estimator" = some (.svcBase rs) ∧
    (dictMem p "max_samples" = false →
       dictGet d2 "max_samples" = some (.num (1/2))) ∧
    (dictMem p "max_samples" = true →
       dictGet d2 "max_samples" = dictGet p "max_samples") ∧
    (∀ k, k ≠ "base_estimator" → k ≠ "max_samples" →
       dictGet d2 k = dictGet p k) ∧
    g = .ofDict d2 ∧
    (∀ m, m ∈ supportedMethods → m ≠ "bagging" →
       (get_model m min_c (some p) rs).toOption.map
           (fun md => md.model_params_after) = some (some p)) := by
  have hget : get_model "bagging" min_c (some p) rs
      = finishModel ⟨"BaggingClassifier", [("base_estimator", PVal.svcBase rs)]⟩
          (.ofList [[("n_estimators", PVal.numList [10, 20]),
                     ("bootstrap_features", PVal.boolList [true, false])]])
          (baggingAdjust (some p) rs) := rfl
  rw [hget] at hparams hgrid
  simp only [finishModel, baggingAdjust, Except.toOption, Option.map_some,
    Option.map_some', Option.some.injEq] at hparams hgrid
  have hbm : dictMem (dictSet p "base_estimator" (.svcBase rs)) "max_samples"
      = dictMem p "max_samples" :=
    dictMem_dictSet_ne p _ _ _ (by decide)
  have hd2 : d2 = if dictMem p "max_samples"
      then dictSet p "base_estimator" (.svcBase rs)
      else dictSet (dictSet p "base_estimator" (.svcBase rs)) "max_samples"
        (.num (1/2)) := by
    rw [← hparams, hbm]
  refine ⟨?_, ?_, ?_, ?_, ?_, ?_⟩
  · by_cases hm : dictMem p "max_samples"
    · rw [hd2, if_pos hm, dictGet_dictSet_self]
    · rw [hd2, if_neg hm, dictGet_dictSet_ne _ _ _ _ (by decide),
        dictGet_dictSet_self]
  · intro hm
    rw [hd2, hm, if_neg (by simp), dictGet_dictSet_self]
  · intro hm
    rw [hd2, hm, if_pos rfl, dictGet_dictSet_ne _ _ _ _ (by decide)]
  · intro k hk1 hk2
    by_cases hm : dictMem p "max_samples"
    · rw [hd2, if_pos hm, dictGet_dictSet_ne _ _ _ _ hk1]
    · rw [hd2, if_neg hm, dictGet_dictSet_ne _ _ _ _ hk2,
        dictGet_dictSet_ne _ _ _ _ hk1]
  · rw [← hgrid, hbm, hd2]
  · intro m hmem hnb
    simp only [supportedMethods, List.mem_cons, List.not_mem_nil, or_false]
      at hmem
    rcases hmem with h | h | h | h | h | h | h | h <;>
      first
        | exact absurd h hnb
        | (subst h; simp [get_model, finishModel, Except.toOption])

theorem bagging_mutates_model_params_witness :
    dictGet [("alpha", PVal.num 3), ("base_estimator", PVal.svcBase none),
        ("max_samples", PVal.num (1/2))] "base_estimator"
      = some (.svcBase none) ∧
    dictGet [("alpha", PVal.num 3), ("base_estimator", PVal.svcBase none),
        ("max_samples", PVal.num (1/2))] "max_samples"
      = some (.num (1/2)) ∧
    dictGet [("alpha", PVal.num 3), ("base_estimator", PVal.svcBase none),
        ("max_samples", PVal.num (1/2))] "alpha"
      = dictGet [("alpha", PVal.num 3)] "alpha" := by
  have h := bagging_mutates_model_params [("alpha", PVal.num 3)]
    [("alpha", PVal.num 3), ("base_estimator", PVal.svcBase none),
     ("max_samples", PVal.num (1/2))] 1 none
    (.ofDict [("alpha", PVal.num 3), ("base_estimator", PVal.svcBase none),
     ("max_samples", PVal.num (1/2))]) (by rfl) (by rfl)
  exact ⟨h.1, h.2.1 (by decide), h.2.2.2.1 "alpha" (by decide) (by decide)⟩

end seizure_modeling

namespace wavelet_classification

theorem ratioSplit_perm (r : ℚ) (s : RandStream) (df : List Row) :
    List.Perm ((ratioSplit r s df).1 ++ (ratioSplit r s df).2) df := by
  induction df generalizing s with
  | nil => simp [ratioSplit]
  | cons x xs ih =>
    by_cases h : s 0 < r
    · simpa [ratioSplit, h] using (ih (shiftStream s 1)).cons x
    · simp only [ratioSplit, h, if_false]
      exact List.Perm.trans List.perm_middle ((ih (shiftStream s 1)).cons x)

theorem ratio_partition_of (df t s : List Row) (r : ℚ) (σ : RandStream)
    (h : ratioSplit r σ df = (t, s)) :
    List.Perm (t ++ s) df ∧ t.length + s.length = df.length ∧
    (df.Nodup → ∀ x ∈ t, x ∉ s) := by
  have ht : t = (ratioSplit r σ df).1 := by rw [h]
  have hs : s = (ratioSplit r σ df).2 := by rw [h]
  subst ht hs
  refine ⟨ratioSplit_perm r σ df, ?_, ?_⟩
  · have := (ratioSplit_perm r σ df).length_eq
    simpa using this
  · intro hnd
    have : ((ratioSplit r σ df).1 ++ (ratioSplit r σ df).2).Nodup :=
      (ratioSplit_perm r σ df).symm.nodup hnd
    exact fun x hx => (List.nodup_append.mp this).2.2 hx

/-- C9: a single ratio split (random_split with a ratio) partitions the
rows of the dataframe: train and test together are a permutation of the
input (no row dropped, none duplicated), and on a duplicate-free input the
two sides are disjoint. -/
theorem random_split_ratio_partitions (df : List Row) (r : ℚ) (sd : Option Nat)
    (env : PyEnv) (t s : List Row)
    (hok : (random_split df (some r) none sd env).toOption.map Prod.fst
      = some (t, s)) :
    List.Perm (t ++ s) df ∧ t.length + s.length = df.length ∧
    (df.Nodup → ∀ x ∈ t, x ∉ s) := by
  cases sd with
  | none =>
    simp only [random_split, Option.isNone_some, Option.isNone_none,
      Bool.false_eq_true, false_and, if_false, Except.toOption,
      Option.map_some', Option.some.injEq] at hok
    exact ratio_partition_of df t s r _ hok
  | some v =>
    simp only [random_split, Option.isNone_some, Option.isNone_none,
      Bool.false_eq_true, false_and, if_false, Except.toOption,
      Option.map_some', Option.some.injEq] at hok
    exact ratio_partition_of df t s r _ hok

end wavelet_classification

namespace wavelet_classification

theorem sampleNoReplace_length (k : Nat) :
    ∀ (l : List Nat) (s : RandStream), k ≤ l.length →
      (sampleNoReplace l k s).length = k := by
  induction k with
  | zero => intro l s _; cases l <;> simp [sampleNoReplace]
  | succ k ih =>
    intro l s h
    cases l with
    | nil => simp at h
    | cons x xs =>
      simp only [sampleNoReplace, List.length_cons]
      rw [ih _ _ ?_]
      have hi : min (Int.toNat ⌊s 0 * ((x :: xs).length : ℚ)⌋)
          ((x :: xs).length - 1) < (x :: xs).length := by
        simp only [List.length_cons]
        exact lt_of_le_of_lt (min_le_right _ _) (by omega)
      rw [List.length_eraseIdx, if_pos ?_]
      · simp only [List.length_cons] at h ⊢
        omega
      · simp only [List.length_cons] at hi ⊢
        exact hi

theorem sampleNoReplace_subset (k : Nat) :
    ∀ (l : List Nat) (s : RandStream) (x : Nat),
      x ∈ sampleNoReplace l k s → x ∈ l := by
  induction k with
  | zero => intro l s x hx; cases l <;> simp [sampleNoReplace] at hx
  | succ k ih =>
    intro l s x hx
    cases l with
    | nil => simp [sampleNoReplace] at hx
    | cons a xs =>
      simp only [sampleNoReplace] at hx
      rcases List.mem_cons.mp hx with h | h
      · have hi : min (Int.toNat ⌊s 0 * ((a :: xs).length : ℚ)⌋)
            ((a :: xs).length - 1) < (a :: xs).length := by
          simp only [List.length_cons]
          exact lt_of_le_of_lt (min_le_right _ _) (by omega)
        rw [h, List.getD_eq_getElem _ _ hi]
        exact List.getElem_mem hi
      · exact List.eraseIdx_subset _ _ (ih _ _ _ h)

theorem filterMapGet_length (df : List Row) (idx : List Nat)
    (h : ∀ i ∈ idx, i < df.length) :
    (idx.filterMap (fun i => df.get? i)).length = idx.length := by
  induction idx with
  | nil => simp
  | cons i rest ih =>
    have hi : df.get? i = some (df.get ⟨i, h i (List.mem_cons_self i rest)⟩) :=
      List.get?_eq_get _
    simp only [List.filterMap_cons, hi, List.length_cons]
    rw [ih (fun j hj => h j (List.mem_cons_of_mem i hj))]

theorem filterMapGet_mem (df : List Row) (idx : List Nat) (x : Row)
    (h : x ∈ idx.filterMap (fun i => df.get? i)) : x ∈ df := by
  rcases List.mem_filterMap.mp h with ⟨i, _, hget⟩
  exact List.get?_mem hget

end wavelet_classification

namespace wavelet_classification

theorem random_split_ratio_seeded (df : List Row) (r : ℚ) (sd : Nat)
    (env : PyEnv) :
    random_split df (some r) none (some sd) env
      = .ok (ratioSplit r env.np df,
             { env with np := shiftStream env.np df.length }) := rfl

theorem random_split_desired_seeded (df : List Row) (d : ℚ) (sd : Nat)
    (env : PyEnv) :
    random_split df none (some d) (some sd) env
      = if df.length < (Int.floor d).toNat then .error .insufficientData
        else
          .ok (((sampleNoReplace (List.range df.length) (Int.floor d).toNat
                   env.np).filterMap (fun i => df.get? i),
                ((List.range df.length).filter
                    (fun i => ¬ i ∈ sampleNoReplace (List.range df.length)
                      (Int.floor d).toNat env.np)).filterMap
                  (fun i => df.get? i)),
               { env with np := shiftStream env.np (Int.floor d).toNat }) := rfl

/-- C2: downsampling (split_experiment_data with do_downsample) returns, in
train and test together, exactly floor(downsample_ratio * preictal-count)
interictal rows whenever that count is available, and fails with the
insufficient-data error (numpy's ValueError for a without-replacement
sample larger than the population; InsufficientDataError in the spec
taxonomy) whenever it is not - it never silently returns fewer rows. -/
theorem downsample_exact_or_error
    (train_interictal train_preictal : List Row) (tr r : ℚ)
    (sd : Option Nat) (env : PyEnv) (t s : List Row)
    (hlab0 : ∀ x ∈ train_interictal, x.preictal = 0)
    (hlab1 : ∀ x ∈ train_preictal, x.preictal = 1) :
    ((split_experiment_data train_interictal train_preictal tr true r sd
        env).toOption.map Prod.fst = some (t, s) →
      (t ++ s).countP (fun row => row.preictal == 0)
        = (Int.floor (r * (train_preictal.length : ℚ))).toNat) ∧
    (train_interictal.length
        < (Int.floor (r * (train_preictal.length : ℚ))).toNat →
      split_experiment_data train_interictal train_preictal tr true r sd env
        = .error .insufficientData) := by
  have main : ∀ (sd1 : Nat) (env1 : PyEnv),
      ((match random_split train_interictal none
            (some (r * (train_preictal.length : ℚ))) (some sd1) env1 with
        | .error e =>
            (.error e : Except PyError ((List Row × List Row) × PyEnv))
        | .ok (pair, env2) =>
            random_split (pair.1 ++ train_preictal) (some tr) none
              (some sd1) env2).toOption.map Prod.fst = some (t, s) →
        (t ++ s).countP (fun row => row.preictal == 0)
          = (Int.floor (r * (train_preictal.length : ℚ))).toNat) ∧
      (train_interictal.length
          < (Int.floor (r * (train_preictal.length : ℚ))).toNat →
        (match random_split train_interictal none
            (some (r * (train_preictal.length : ℚ))) (some sd1) env1 with
        | .error e =>
            (.error e : Except PyError ((List Row × List Row) × PyEnv))
        | .ok (pair, env2) =>
            random_split (pair.1 ++ train_preictal) (some tr) none
              (some sd1) env2) = .error .insufficientData) := by
    intro sd1 env1
    by_cases hfeas : train_interictal.length
        < (Int.floor (r * (train_preictal.length : ℚ))).toNat
    · rw [random_split_desired_seeded, if_pos hfeas]
      exact ⟨fun hok => by simp [Except.toOption] at hok, fun _ => rfl⟩
    · rw [random_split_desired_seeded, if_neg hfeas]
      refine ⟨?_, fun hlt => absurd hlt hfeas⟩
      intro hok
      simp only [random_split_ratio_seeded, Except.toOption, Option.map_some',
        Option.some.injEq] at hok
      have hsub : ∀ i ∈ sampleNoReplace
          (List.range train_interictal.length)
          (Int.floor (r * (train_preictal.length : ℚ))).toNat env1.np,
          i < train_interictal.length := fun i hi =>
        List.mem_range.mp (sampleNoReplace_subset _ _ _ _ hi)
      have hlen : ((sampleNoReplace (List.range train_interictal.length)
          (Int.floor (r * (train_preictal.length : ℚ))).toNat
          env1.np).filterMap (fun i => train_interictal.get? i)).length
          = (Int.floor (r * (train_preictal.length : ℚ))).toNat := by
        rw [filterMapGet_length _ _ hsub,
          sampleNoReplace_length _ _ _ (by simpa using not_lt.mp hfeas)]
      have hperm := (ratio_partition_of _ t s tr _ hok).1
      rw [hperm.countP_eq, List.countP_append]
      have hc0 : ∀ x ∈ (sampleNoReplace (List.range train_interictal.length)
          (Int.floor (r * (train_preictal.length : ℚ))).toNat
          env1.np).filterMap (fun i => train_interictal.get? i),
          (fun row => row.preictal == 0) x = true := by
        intro x hx
        simpa using hlab0 x (filterMapGet_mem _ _ _ hx)
      have hc1 : (train_preictal.countP (fun row => row.preictal == 0)) = 0 :=
        List.countP_eq_zero.mpr (fun x hx => by simp [hlab1 x hx])
      rw [hc1, List.countP_eq_length.mpr hc0, hlen]
      omega
  cases sd with
  | none => exact main _ _
  | some v => exact main _ _

end wavelet_classification

namespace wavelet_classification

theorem random_split_ratio_partitions_witness :
    List.Perm (([⟨"A", 0⟩] : List Row) ++ [⟨"B", 1⟩]) [⟨"A", 0⟩, ⟨"B", 1⟩] ∧
    ([⟨"A", 0⟩] : List Row).length + ([⟨"B", 1⟩] : List Row).length
      = ([⟨"A", 0⟩, ⟨"B", 1⟩] : List Row).length ∧
    (⟨"A", 0⟩ : Row) ∉ ([⟨"B", 1⟩] : List Row) := by
  have h := random_split_ratio_partitions [⟨"A", 0⟩, ⟨"B", 1⟩] (1/2) (some 5)
    ⟨fun n => if n = 0 then 0 else 1, fun _ _ => 0, 0⟩ [⟨"A", 0⟩] [⟨"B", 1⟩]
    (by norm_num [random_split_ratio_seeded, ratioSplit, shiftStream,
          Except.toOption])
  exact ⟨h.1, h.2.1, h.2.2 (by decide) ⟨"A", 0⟩ (by decide)⟩

/-- C3, code-bug evidence: random_split invoked twice with the same
caller-supplied seed (seed=1) on the same one-row dataframe returns
different partitions under two different ambient numpy generator states,
because np.random.seed is only called when the seed argument is None and a
supplied seed is silently ignored. -/
theorem supplied_seed_ignored :
    (random_split [⟨"A", 0⟩] (some (1/2)) none (some 1)
        ⟨fun _ => 0, fun _ _ => 0, 0⟩).toOption.map Prod.fst
      ≠ (random_split [⟨"A", 0⟩] (some (1/2)) none (some 1)
        ⟨fun _ => 1, fun _ _ => 0, 0⟩).toOption.map Prod.fst := by
  norm_num [random_split_ratio_seeded, ratioSplit, Except.toOption]

/-- C1, counterexample: the train/test split performed by
split_experiment_data is a row-level random mask, not segment-aware: on a
dataframe whose two rows belong to the same segment "A", the split puts
one row in train and one in test, so the segment-id sets of the two sides
intersect in "A". -/
theorem split_experiment_data_splits_a_segment :
    (split_experiment_data [⟨"A", 0⟩, ⟨"A", 0⟩] [] (4/5) false 1 (some 7)
        ⟨fun n => if n = 0 then 0 else 9/10, fun _ _ => 0, 0⟩).toOption.map
      (fun x => (x.1.1.map (fun row => row.segment_id)).inter
                  (x.1.2.map (fun row => row.segment_id)))
      = some ["A"] ∧ (["A"] : List String) ≠ [] := by
  refine ⟨?_, by simp⟩
  norm_num [split_experiment_data, random_split_ratio_seeded, ratioSplit,
    shiftStream, Except.toOption, List.inter]

theorem downsample_exact_or_error_witness :
    ((([⟨"i", 0⟩, ⟨"i", 0⟩, ⟨"p", 1⟩] : List Row) ++ ([] : List Row)).countP
        (fun row => row.preictal == 0) = 2) ∧
    split_experiment_data [⟨"i", 0⟩, ⟨"i", 0⟩, ⟨"i", 0⟩] [⟨"p", 1⟩] 1 true 5
        (some 7) ⟨fun _ => 0, fun _ _ => 0, 0⟩ = .error .insufficientData := by
  constructor
  · have h := (downsample_exact_or_error [⟨"i", 0⟩, ⟨"i", 0⟩, ⟨"i", 0⟩]
      [⟨"p", 1⟩] 1 2 (some 7) ⟨fun _ => 0, fun _ _ => 0, 0⟩
      [⟨"i", 0⟩, ⟨"i", 0⟩, ⟨"p", 1⟩] [] (by decide) (by decide)).1
      (by norm_num [split_experiment_data, random_split, sampleNoReplace,
            ratioSplit, shiftStream, Except.toOption])
    norm_num at h
    exact h
  · exact (downsample_exact_or_error [⟨"i", 0⟩, ⟨"i", 0⟩, ⟨"i", 0⟩]
      [⟨"p", 1⟩] 1 5 (some 7) ⟨fun _ => 0, fun _ _ => 0, 0⟩ [] []
      (by decide) (by decide)).2 (by norm_num)

end wavelet_classification

theorem segment_fold_disjoint_aux (df : List Row) (nFolds : Nat)
    (folds : List (List Nat × List Nat)) (tr te : List Nat)
    (hok : dataset.SegmentCrossValidator df nFolds = .ok folds)
    (hmem : (tr, te) ∈ folds) :
    ∀ g ∈ seizure_modeling.segIdsAt df tr,
      g ∉ seizure_modeling.segIdsAt df te := by
  simp only [dataset.SegmentCrossValidator] at hok
  split at hok
  · cases hok
  · rw [Except.ok.injEq] at hok
    subst hok
    rcases List.mem_map.mp hmem with ⟨j, _, hj⟩
    rw [Prod.mk.injEq] at hj
    intro g hg hg2
    rcases List.mem_map.mp hg with ⟨row, hrow, hrowg⟩
    rcases List.mem_map.mp hrow with ⟨i, hi, hrowi⟩
    rcases List.mem_map.mp hg2 with ⟨row2, hrow2, hrow2g⟩
    rcases List.mem_map.mp hrow2 with ⟨i2, hi2, hrow2i⟩
    rw [← hj.1] at hi
    rw [← hj.2] at hi2
    have h1 : dataset.foldOf df nFolds (dataset.rowSeg df i) ≠ j := by
      simpa using (List.mem_filter.mp hi).2
    have h2 : dataset.foldOf df nFolds (dataset.rowSeg df i2) = j := by
      simpa using (List.mem_filter.mp hi2).2
    have hgseg : dataset.rowSeg df i = g := by
      rw [dataset.rowSeg, ← hrowg, hrowi]
    have hgseg2 : dataset.rowSeg df i2 = g := by
      rw [dataset.rowSeg, ← hrow2g, hrow2i]
    rw [hgseg] at h1
    rw [hgseg2] at h2
    exact h1 h2

/-- C1, amended: every fold produced by the segment-aware
SegmentCrossValidator path (and by get_cv_generator with do_segment_split
true, which instantiates it with n_folds=10) has an empty intersection
between the segment ids of its train rows and of its test rows; the
row-level train/test split of split_experiment_data gives no such
guarantee. -/
theorem segment_folds_disjoint (df : List Row) (nFolds : Nat)
    (folds : List (List Nat × List Nat)) (tr te : List Nat)
    (hok : dataset.SegmentCrossValidator df nFolds = .ok folds ∨
           seizure_modeling.get_cv_generator df true = .ok folds)
    (hmem : (tr, te) ∈ folds) :
    ∀ g ∈ seizure_modeling.segIdsAt df tr,
      g ∉ seizure_modeling.segIdsAt df te := by
  rcases hok with h | h
  · exact segment_fold_disjoint_aux df nFolds folds tr te h hmem
  · exact segment_fold_disjoint_aux df 10 folds tr te h hmem

theorem segment_folds_disjoint_witness :
    "C" ∉ seizure_modeling.segIdsAt
        [⟨"A", 1⟩, ⟨"A", 1⟩, ⟨"B", 0⟩, ⟨"C", 0⟩] [0, 1, 2] :=
  segment_folds_disjoint [⟨"A", 1⟩, ⟨"A", 1⟩, ⟨"B", 0⟩, ⟨"C", 0⟩] 2
    [([3], [0, 1, 2]), ([0, 1, 2], [3])] [3] [0, 1, 2]
    (Or.inl rfl) (by decide) "C" (by decide)

/-- C7: when the number of distinct segments is smaller than the requested
fold count, constructing the segment-aware cross-validation folds fails
with the configuration error (the ValueError sklearn StratifiedKFold
raises at construction, before any model computation; ConfigurationError
in the spec taxonomy); in particular get_cv_generator with
do_segment_split true fails whenever there are fewer than its fixed
n_folds=10 distinct segments. -/
theorem too_few_segments_configuration_error (df : List Row) (nFolds : Nat)
    (h : (dataset.segmentsOf df).length < nFolds) :
    dataset.SegmentCrossValidator df nFolds
      = .error .configurationError ∧
    ((dataset.segmentsOf df).length < 10 →
      seizure_modeling.get_cv_generator df true
        = .error .configurationError) := by
  constructor
  · simp [dataset.SegmentCrossValidator, h]
  · intro h10
    simp [seizure_modeling.get_cv_generator, dataset.SegmentCrossValidator,
      h10]

theorem too_few_segments_configuration_error_witness :
    dataset.SegmentCrossValidator [⟨"A", 1⟩, ⟨"B", 0⟩, ⟨"C", 0⟩] 5
      = .error .configurationError ∧
    seizure_modeling.get_cv_generator [⟨"A", 1⟩, ⟨"B", 0⟩, ⟨"C", 0⟩] true
      = .error .configurationError :=
  ⟨(too_few_segments_configuration_error [⟨"A", 1⟩, ⟨"B", 0⟩, ⟨"C", 0⟩] 5
      (by decide)).1,
   (too_few_segments_configuration_error [⟨"A", 1⟩, ⟨"B", 0⟩, ⟨"C", 0⟩] 5
      (by decide)).2 (by decide)⟩

/-- C4, counterexample: the scorer built by select_model and
find_best_model (make_scorer(roc_auc_score, average='weighted'), with
sklearn's default needs_proba=False) scores on hard predictions: on a
two-sample fold, an estimator that supports probability output and ranks
the samples perfectly by probability receives fold score 1/2 (hard
predictions [1, 1]) where the spec's probability-based score is 1. -/
theorem scorer_ignores_probability_output :
    estC4.predict_proba.isSome = true ∧
    seizure_modeling.gridSearchFoldScore estC4 [[2/5], [3/5]] [0, 1] = 1/2 ∧
    seizure_modeling.specFoldScore estC4 [[2/5], [3/5]] [0, 1] = 1 ∧
    seizure_modeling.gridSearchFoldScore estC4 [[2/5], [3/5]] [0, 1]
      ≠ seizure_modeling.specFoldScore estC4 [[2/5], [3/5]] [0, 1] := by
  refine ⟨rfl, ?_, ?_, ?_⟩ <;>
    · simp only [seizure_modeling.gridSearchFoldScore,
        seizure_modeling.specFoldScore, seizure_modeling.selectModelScorer,
        applyScorer, make_scorer, roc_auc_score, estC4, List.indexOf,
        List.findIdx, List.findIdx.go, List.zip, List.zipWith, List.filter,
        List.map_cons, List.map_nil,
        show ((0 : ℤ) == 1) = false from by decide,
        show ((1 : ℤ) == 1) = true from by decide, cond_false, cond_true,
        List.getElem?_cons_zero, List.getElem?_cons_succ, Option.getD_some]
      norm_num

/-- C4, amended: the score assigned to every (configuration, fold) by the
grid search driver is the weighted area-under-ROC-curve computed from hard
class predictions for every estimator - make_scorer with default keyword
arguments wraps the metric over estimator.predict, never predict_proba,
whether or not the estimator supports probability output. -/
theorem fold_score_uses_hard_predictions (est : SkEstimator)
    (x : List Features) (y : List ℤ) :
    seizure_modeling.gridSearchFoldScore est x y
      = roc_auc_score y ((est.predict x).map (fun z => (z : ℚ))) := by
  simp [seizure_modeling.gridSearchFoldScore, applyScorer,
    seizure_modeling.selectModelScorer, make_scorer]

theorem getD_ne_of_lt_indexOf {α : Type} [DecidableEq α] (l : List α)
    (a d : α) : ∀ (j : Nat), j < l.indexOf a → l.getD j d ≠ a := by
  induction l with
  | nil => intro j hj; simp [List.indexOf] at hj
  | cons x xs ih =>
    intro j hj
    by_cases hx : x = a
    · rw [List.indexOf_cons_eq _ hx] at hj
      exact absurd hj (Nat.not_lt_zero j)
    · rw [List.indexOf_cons_ne _ hx] at hj
      cases j with
      | zero => simpa using hx
      | succ j =>
        simp only [List.getD_cons_succ]
        exact ih j (Nat.lt_of_succ_lt_succ hj)

/-- C5: seizure_modeling.predict with probabilities requested and an
estimator exposing predict_proba returns the probability column of the
class labeled 1, located by looking up the index of label 1 within the
estimator's own class ordering (the returned column index carries label 1
and no earlier index does - never a fixed position); in every other case
it returns the hard predicted labels. -/
theorem predict_selects_class_one_column (clf : SkEstimator)
    (td : List Features) (prob : Bool) :
    (∀ f, clf.predict_proba = some f → prob = true →
      ((1 : ℤ) ∈ clf.classes_ →
        seizure_modeling.predict clf td prob
          = .ok ((f td).map (fun row =>
              row.getD (clf.classes_.indexOf 1) 0)) ∧
        clf.classes_.getD (clf.classes_.indexOf 1) 0 = 1 ∧
        (∀ j, j < clf.classes_.indexOf 1 → clf.classes_.getD j 0 ≠ 1)) ∧
      ((1 : ℤ) ∉ clf.classes_ →
        seizure_modeling.predict clf td prob = .error .valueError)) ∧
    (clf.predict_proba = none ∨ prob = false →
      seizure_modeling.predict clf td prob
        = .ok ((clf.predict td).map (fun z => (z : ℚ)))) := by
  constructor
  · intro f hf hp
    subst hp
    constructor
    · intro h1
      have hlt : clf.classes_.indexOf 1 < clf.classes_.length :=
        List.indexOf_lt_length.mpr h1
      refine ⟨?_, ?_, fun j hj => getD_ne_of_lt_indexOf _ _ _ j hj⟩
      · simp [seizure_modeling.predict, hf, h1]
      · rw [List.getD_eq_getElem _ _ hlt]
        exact List.getElem_indexOf hlt
    · intro h1
      simp [seizure_modeling.predict, hf, h1]
  · intro h
    rcases h with h | h
    · simp [seizure_modeling.predict, h]
    · subst h
      simp [seizure_modeling.predict]

theorem predict_selects_class_one_column_witness :
    seizure_modeling.predict estC4 [[2/5]] true = .ok [2/5] ∧
    ([0, 1] : List ℤ).getD (([0, 1] : List ℤ).indexOf 1) 0 = 1 ∧
    seizure_modeling.predict estC4 [[2/5]] false = .ok [1] := by
  have h := (predict_selects_class_one_column estC4 [[2/5]] true).1 _ rfl rfl
  have h1 := h.1 (by decide)
  refine ⟨?_, ?_, ?_⟩
  · rw [h1.1]
    norm_num [estC4, List.indexOf, List.findIdx, List.findIdx.go,
      show ((0 : ℤ) == 1) = false from by decide,
      show ((1 : ℤ) == 1) = true from by decide]
  · exact h1.2.1
  · rw [(predict_selects_class_one_column estC4 [[2/5]] false).2 (Or.inr rfl)]
    norm_num [estC4]
